import Mathlib

set_option maxRecDepth 100000

/-!
Verification of the DHT11 single-wire sensor driver (src/sensor.c) against its
specification.  The two driver entry points, dht11_sensor_read and
dht11_sensor_debug_read, are shallowly embedded below.  The external world
(the GPIO line and the DWT cycle counter) is modelled by an environment that
supplies, for each polling loop, the sampled line states and counter values in
the order the C code reads them.  Machine integers are modelled as Nat with
explicit reduction modulo 2^32 (the uint32 cycle arithmetic) and modulo 256
(the uint8 checksum).  The float fields of the application structure only
ever hold integers of magnitude below 256, which float32 represents exactly
and compares exactly against the literals 100.0f, 60.0f and -40.0f, so they
are modelled as Nat and Int.
-/

/-- Capacity of the debug_log buffer, from app.h: char debug_log[2048]. -/
def debugLogCap : Nat := 2048

/-- 2^32, the modulus of uint32 arithmetic, as a numeral. -/
def u32Mod : Nat := 4294967296

/-- Wraparound uint32 subtraction a - b, as in DWT->CYCCNT - start_cycles. -/
def wsub (a b : Nat) : Nat := (a % u32Mod + (u32Mod - b % u32Mod)) % u32Mod

/-- One polling loop of sensor.c, pattern
    while(cond && timeout < 200) \x7b furi_delay_us(1); timeout++; \x7d
    where cond samples the GPIO line at the poll with the current timeout
    counter value.  Returns the final timeout counter.  The fuel argument is
    201, enough for the counter to run from 0 to the 200 bound. -/
def waitLoopAux (cond : Nat → Bool) : Nat → Nat → Nat
  | 0, t => t
  | fuel + 1, t => if cond t ∧ t < 200 then waitLoopAux cond fuel (t + 1) else t

/-- Polling wait from timeout = 0, as each wait in sensor.c starts. -/
def waitLoop (cond : Nat → Bool) : Nat := waitLoopAux cond 201 0

/-- Fuel for the high-period measurement loop; the loop breaks before 13000
    iterations whenever the counter reads are strictly increasing, so this
    bound is never the reason the loop stops in the scenarios considered. -/
def measureFuel : Nat := 20000

/-- Measurement loop of sensor.c lines 104-111 (and 273-279):
    while(gpio_read()) \x7b elapsed = (CYCCNT - start)/64; if(elapsed > 200) break; \x7d
    line k is the k-th GPIO sample of this loop; rd r is the r-th read of the
    DWT cycle counter, rd 0 being start_cycles.  Iteration k reads line k and,
    if the line is high, counter read k+1.  The function returns the index of
    the counter read that the subsequent end_cycles = DWT->CYCCNT performs:
    k+1 when the line was seen low at iteration k, k+2 when the 200 microsecond
    cutoff broke the loop at iteration k. -/
def measureHighEnd (line : Nat → Bool) (rd : Nat → Nat) : Nat → Nat → Nat
  | 0, k => k + 1
  | fuel + 1, k =>
    if line k then
      if 200 < wsub (rd (k + 1)) (rd 0) / 64 then k + 2
      else measureHighEnd line rd fuel (k + 1)
    else k + 1

/-- pulse_duration_us = (end_cycles - start_cycles) / 64 (64 cycles = 1 us). -/
def measureHigh (line : Nat → Bool) (rd : Nat → Nat) : Nat :=
  wsub (rd (measureHighEnd line rd measureFuel 0)) (rd 0) / 64

/-- Environment of one driver invocation: the line states and counter values
    that the successive polling loops of sensor.c observe.  ack1, ack2, ack3
    feed the three handshake waits (response low, response high, end of the
    response high period); bitStart i feeds the wait for the start of bit i;
    bitLine i and bitRd i feed the high-period measurement of bit i; initHigh
    is the pin state sampled by the debug read before the start signal. -/
structure DHT11Env where
  initHigh : Bool
  ack1 : Nat → Bool
  ack2 : Nat → Bool
  ack3 : Nat → Bool
  bitStart : Nat → Nat → Bool
  bitLine : Nat → Nat → Bool
  bitRd : Nat → Nat → Nat

/-- Measured high-period duration of bit i, in whole microseconds. -/
def bitDuration (env : DHT11Env) (i : Nat) : Nat :=
  measureHigh (env.bitLine i) (env.bitRd i)

/-- Failure kinds of the driver, as named by the comments and debug messages
    at the corresponding return false sites of sensor.c. -/
inductive DHT11Failure where
  | noResponse
  | invalidResponseTiming
  | responseTooLong
  | bitTimeout (i : Nat)
  | checksumMismatch
  | outOfRange
deriving DecidableEq, Repr

/-- Outcome of a read: the C functions return only a bool, but each failing
    return site is tied to one failure kind; outcomeBool recovers the bool. -/
inductive ReadOutcome where
  | ok
  | fail (f : DHT11Failure)
deriving DecidableEq, Repr

/-- The boolean actually returned by the C functions. -/
def outcomeBool : ReadOutcome → Bool
  | .ok => true
  | .fail _ => false

/-- data[byte_idx] |= (1 << bit_idx) with byte_idx = i / 8, bit_idx = 7 - (i % 8),
    sensor.c lines 117-119 and 288-290.  The frame is a function from byte
    index to byte value. -/
def updByte (data : Nat → Nat) (i : Nat) : Nat → Nat :=
  fun j => if j = i / 8 then data (i / 8) ||| (1 <<< (7 - i % 8)) else data j

/-- The 40-bit data phase of dht11_sensor_read (lines 85-122): for each bit,
    wait for the bit start (fail with BitTimeout on 200 polls), measure the
    high period, and set the bit when the duration exceeds 40 us.  Structural
    fuel stands for the remaining loop iterations: the loop is entered with
    fuel 40 and index 0. -/
def readBitsAux (env : DHT11Env) : Nat → Nat → (Nat → Nat) → ReadOutcome × (Nat → Nat)
  | 0, _, data => (.ok, data)
  | fuel + 1, i, data =>
    let t := waitLoop (fun k => !(env.bitStart i k))
    if 200 ≤ t then (.fail (.bitTimeout i), data)
    else
      let d := bitDuration env i
      let data' := if 40 < d then updByte data i else data
      readBitsAux env fuel (i + 1) data'

/-- Data phase from bit 0 with the zero-initialised frame uint8_t data[5] = \x7b0\x7d. -/
def readBits (env : DHT11Env) : ReadOutcome × (Nat → Nat) :=
  readBitsAux env 40 0 (fun _ => 0)

/-- The frame assembled by the data phase. -/
def frameOf (env : DHT11Env) : Nat → Nat := (readBits env).2

/-- Reading stored in the application structure (app.h): temperature and
    humidity floats, holding exact small integers. -/
structure AppState where
  temperature : Int
  humidity : Nat
deriving DecidableEq, Repr

/-- Sign-magnitude temperature decoding of dht11_sensor_read lines 137-142:
    temperature = data[2], negated magnitude when bit 7 of data[2] is set. -/
def decodeTemp (t2 : Nat) : Int :=
  if t2 &&& 128 ≠ 0 then -(((t2 &&& 127) : Nat) : Int) else (t2 : Int)

/-- Frame validation and conversion of dht11_sensor_read lines 126-153:
    uint8 checksum over the first four bytes compared with the fifth, then
    the conversion into app fields, then the range check.  Note that the app
    fields are assigned before the range check, exactly as in the C code. -/
def validateFrame (data : Nat → Nat) (app : AppState) : ReadOutcome × AppState :=
  if (data 0 + data 1 + data 2 + data 3) % 256 ≠ data 4 then (.fail .checksumMismatch, app)
  else
    let app' : AppState := { temperature := decodeTemp (data 2), humidity := data 0 }
    if 100 < app'.humidity ∨ 60 < app'.temperature ∨ app'.temperature < -40 then
      (.fail .outOfRange, app')
    else (.ok, app')

/-- Shallow embedding of dht11_sensor_read (sensor.c lines 24-154): the three
    handshake waits with their failure kinds, the 40-bit data phase, and the
    frame validation.  The notification and GPIO mode calls have no effect on
    the returned values and are not modelled. -/
def dht11_sensor_read (env : DHT11Env) (app : AppState) : ReadOutcome × AppState :=
  let t1 := waitLoop env.ack1
  if 200 ≤ t1 then (.fail .noResponse, app)
  else
    let t2 := waitLoop (fun k => !(env.ack2 k))
    if 200 ≤ t2 then (.fail .invalidResponseTiming, app)
    else
      let t3 := waitLoop env.ack3
      if 200 ≤ t3 then (.fail .responseTooLong, app)
      else
        match readBits env with
        | (.fail f, _) => (.fail f, app)
        | (.ok, data) => validateFrame data app

/-- Trace entries of dht11_sensor_debug_read, one constructor per snprintf
    append into app->debug_log, in source order, carrying the dynamic values
    that the corresponding format string prints. -/
inductive TraceEntry where
  | hdr
  | pinInfo
  | ledStart
  | pinState (high : Bool)
  | startSignal
  | criticalEnter
  | releaseSignal
  | inputMode
  | waitForLow (t : Nat)
  | errNoResponse
  | checkWiring
  | responseLow (t : Nat)
  | errInvalidTiming
  | responseHigh (t : Nat)
  | errResponseTooLong
  | dataStart
  | bitDetail (i d : Nat) (v : Bool)
  | bitSampled (i d : Nat) (v : Bool)
  | errBitStartTimeout (i : Nat)
  | criticalExitMark
  | bitsReadMark (n : Nat)
  | timingHdr
  | timingDWT
  | timingThr
  | timingExp
  | timingHP
  | rawData (d0 d1 d2 d3 d4 : Nat)
  | checksumCalc (cs recv : Nat)
  | errChecksum
  | humidityVal (h : Nat)
  | temperatureVal (t : Int)
  | errRange
  | successMark
deriving DecidableEq, Repr

/-- Error trace entry written at each failing return site of the debug read. -/
def errEntryOf : DHT11Failure → TraceEntry
  | .noResponse => .errNoResponse
  | .invalidResponseTiming => .errInvalidTiming
  | .responseTooLong => .errResponseTooLong
  | .bitTimeout i => .errBitStartTimeout i
  | .checksumMismatch => .errChecksum
  | .outOfRange => .errRange

/-- The 40-bit data phase of dht11_sensor_debug_read (lines 251-303): the same
    bit protocol as readBitsAux plus the bits_read counter and the per-bit log
    entries, a detailed entry for every bit index below 16 and a sampled entry
    for later indices congruent to 7 modulo 8. -/
def debugBitsAux (env : DHT11Env) :
    Nat → Nat → (Nat → Nat) → Nat → List TraceEntry →
    ReadOutcome × (Nat → Nat) × Nat × List TraceEntry
  | 0, _, data, br, tr => (.ok, data, br, tr)
  | fuel + 1, i, data, br, tr =>
    let t := waitLoop (fun k => !(env.bitStart i k))
    if 200 ≤ t then (.fail (.bitTimeout i), data, br, tr ++ [.errBitStartTimeout i])
    else
      let d := bitDuration env i
      let v := decide (40 < d)
      let data' := if v then updByte data i else data
      let tr' :=
        if i < 16 then tr ++ [.bitDetail i d v]
        else if i % 8 = 7 then tr ++ [.bitSampled i d v]
        else tr
      debugBitsAux env fuel (i + 1) data' (br + 1) tr'

/-- Shallow embedding of dht11_sensor_debug_read (sensor.c lines 157-353):
    the same protocol as dht11_sensor_read with the debug_log entries, and
    with the conversion of lines 335-336, which stores the raw byte data[2]
    as the temperature with no sign-magnitude decoding. -/
def dht11_sensor_debug_read (env : DHT11Env) (app : AppState) :
    ReadOutcome × AppState × List TraceEntry :=
  let tr0 : List TraceEntry :=
    [.hdr, .pinInfo, .ledStart, .pinState env.initHigh, .startSignal,
     .criticalEnter, .releaseSignal, .inputMode]
  let t1 := waitLoop env.ack1
  let tr1 := tr0 ++ [.waitForLow t1]
  if 200 ≤ t1 then (.fail .noResponse, app, tr1 ++ [.errNoResponse, .checkWiring])
  else
    let t2 := waitLoop (fun k => !(env.ack2 k))
    let tr2 := tr1 ++ [.responseLow t2]
    if 200 ≤ t2 then (.fail .invalidResponseTiming, app, tr2 ++ [.errInvalidTiming])
    else
      let t3 := waitLoop env.ack3
      let tr3 := tr2 ++ [.responseHigh t3]
      if 200 ≤ t3 then (.fail .responseTooLong, app, tr3 ++ [.errResponseTooLong])
      else
        let tr4 := tr3 ++ [.dataStart]
        match debugBitsAux env 40 0 (fun _ => 0) 0 [] with
        | (.fail f, _, _, trb) => (.fail f, app, tr4 ++ trb)
        | (.ok, data, br, trb) =>
          let tr5 := tr4 ++ trb ++
            [.criticalExitMark, .bitsReadMark br, .timingHdr, .timingDWT,
             .timingThr, .timingExp, .timingHP,
             .rawData (data 0) (data 1) (data 2) (data 3) (data 4),
             .checksumCalc ((data 0 + data 1 + data 2 + data 3) % 256) (data 4)]
          if (data 0 + data 1 + data 2 + data 3) % 256 ≠ data 4 then
            (.fail .checksumMismatch, app, tr5 ++ [.errChecksum])
          else
            let app' : AppState := { temperature := (data 2 : Int), humidity := data 0 }
            let tr6 := tr5 ++ [.humidityVal app'.humidity, .temperatureVal app'.temperature]
            if 100 < app'.humidity ∨ 60 < app'.temperature ∨ app'.temperature < -40 then
              (.fail .outOfRange, app', tr6 ++ [.errRange])
            else (.ok, app', tr6 ++ [.successMark])

/-- The three handshake waits all observe their transition within 200 polls. -/
def handshakeOk (env : DHT11Env) : Prop :=
  waitLoop env.ack1 < 200 ∧
  waitLoop (fun k => !(env.ack2 k)) < 200 ∧
  waitLoop env.ack3 < 200

/-- Every bit-start wait observes the line going high within 200 polls. -/
def bitStartsOk (env : DHT11Env) : Prop :=
  ∀ i, i < 40 → waitLoop (fun k => !(env.bitStart i k)) < 200

instance (env : DHT11Env) : Decidable (handshakeOk env) := by
  unfold handshakeOk; infer_instance

instance (env : DHT11Env) : Decidable (bitStartsOk env) := by
  unfold bitStartsOk; exact Nat.decidableBallLT 40 _

/-- Frame bytes given as a list, read as a function with default 0. -/
def frameFun (l : List Nat) : Nat → Nat := fun j => l.getD j 0

/-- Environment in which the sensor answers immediately at every wait and
    holds the line high during the measurement of bit i for exactly 70 us
    when bit i of the frame l is one and 26 us when it is zero, the nominal
    DHT11 pulse widths: the line is seen low at the first measurement sample
    and the counter has advanced by the pulse width times 64 cycles. -/
def envOfFrame (l : List Nat) : DHT11Env where
  initHigh := true
  ack1 := fun _ => false
  ack2 := fun _ => true
  ack3 := fun _ => false
  bitStart := fun _ _ => true
  bitLine := fun _ _ => false
  bitRd := fun i r =>
    if r = 0 then 0
    else if (frameFun l (i / 8)).testBit (7 - i % 8) then 70 * 64 else 26 * 64

/-- Environment in which the line never goes low after release: the first
    handshake wait times out, the NoResponse case. -/
def envNoResp : DHT11Env where
  initHigh := true
  ack1 := fun _ => true
  ack2 := fun _ => true
  ack3 := fun _ => false
  bitStart := fun _ _ => true
  bitLine := fun _ _ => false
  bitRd := fun _ _ => 0

/-- Environment whose every bit measures a given duration d: the line is seen
    low at once and the counter advanced by 64 d cycles. -/
def envOfDur (d : Nat) : DHT11Env where
  initHigh := true
  ack1 := fun _ => false
  ack2 := fun _ => true
  ack3 := fun _ => false
  bitStart := fun _ _ => true
  bitLine := fun _ _ => false
  bitRd := fun _ r => if r = 0 then 0 else 64 * d

/-- A fixed prior application state used in the concrete scenarios. -/
def app0 : AppState := { temperature := 7, humidity := 50 }

example : (dht11_sensor_read (envOfFrame [50, 0, 24, 0, 74]) app0).1 = .ok := by decide
example : (dht11_sensor_read (envOfFrame [50, 0, 24, 0, 74]) app0).2 =
    { temperature := 24, humidity := 50 } := by decide
example : (dht11_sensor_read (envOfFrame [40, 0, 133, 0, 173]) app0).2.temperature = -5 := by decide
example : (dht11_sensor_debug_read (envOfFrame [40, 0, 133, 0, 173]) app0).2.1.temperature = 133 := by decide
example : (dht11_sensor_debug_read (envOfFrame [40, 0, 133, 0, 173]) app0).1 = .fail .outOfRange := by decide
example : (dht11_sensor_debug_read envNoResp app0).1 = .fail .noResponse := by decide
example : (dht11_sensor_debug_read envNoResp app0).2.2 =
    [.hdr, .pinInfo, .ledStart, .pinState true, .startSignal, .criticalEnter,
     .releaseSignal, .inputMode, .waitForLow 200, .errNoResponse, .checkWiring] := by decide

/-- Number of decimal digits that printf prints for a Nat (one digit for 0).
    Structural fuel of 32 covers every value below 10^32, far beyond the
    uint32 values the driver prints. -/
def decLenAux : Nat → Nat → Nat
  | 0, _ => 0
  | fuel + 1, n => if n < 10 then 1 else decLenAux fuel (n / 10) + 1

/-- Decimal digit count used by the %d and %lu conversions. -/
def decLen (n : Nat) : Nat := decLenAux 32 n

/-- Byte length of the %.1f conversion of a float holding the exact integer
    value t of magnitude below 2^24: the digits, a minus sign when negative,
    and the two characters of the .0 suffix. -/
def floatLen (t : Int) : Nat := (if t < 0 then 1 else 0) + decLen t.natAbs + 2

/-- Byte count that the snprintf call for each trace entry returns, i.e. the
    length of the formatted string.  The fixed parts are the literal byte
    counts of the format strings in sensor.c lines 167-351; the %02X fields
    print two characters because every frame byte is below 256 (established
    by readBits_lt below); the handshake %lu values are timeout counters and
    the per-bit %lu values are pulse durations. -/
def entryLen : TraceEntry → Nat
  | .hdr => 24
  | .pinInfo => 19
  | .ledStart => 27
  | .pinState high => if high then 27 else 26
  | .startSignal => 34
  | .criticalEnter => 41
  | .releaseSignal => 37
  | .inputMode => 31
  | .waitForLow t => 30 + decLen t
  | .errNoResponse => 30
  | .checkWiring => 37
  | .responseLow t => 20 + decLen t
  | .errInvalidTiming => 31
  | .responseHigh t => 21 + decLen t
  | .errResponseTooLong => 25
  | .dataStart => 30
  | .bitDetail i d _ => 21 + decLen i + decLen d
  | .bitSampled i d _ => 13 + decLen i + decLen d
  | .errBitStartTimeout i => 26 + decLen i
  | .criticalExitMark => 41
  | .bitsReadMark n => 19 + decLen n
  | .timingHdr => 17
  | .timingDWT => 40
  | .timingThr => 26
  | .timingExp => 30
  | .timingHP => 32
  | .rawData _ _ _ _ _ => 29
  | .checksumCalc _ _ => 36
  | .errChecksum => 25
  | .humidityVal h => 16 + floatLen (h : Int)
  | .temperatureVal t => 21 + floatLen t
  | .errRange => 27
  | .successMark => 28

/-- Total formatted length of a list of trace entries: the value of log_pos
    after appending them all, by the snprintf return-value accumulation. -/
def traceLen (tr : List TraceEntry) : Nat := (tr.map entryLen).sum

theorem waitLoopAux_le (cond : Nat → Bool) :
    ∀ fuel t, t ≤ 200 → waitLoopAux cond fuel t ≤ 200 := by
  intro fuel
  induction fuel with
  | zero => intro t ht; simpa [waitLoopAux] using ht
  | succ fuel ih =>
    intro t ht
    unfold waitLoopAux
    split
    · exact ih (t + 1) (by omega)
    · exact ht

theorem waitLoop_le (cond : Nat → Bool) : waitLoop cond ≤ 200 :=
  waitLoopAux_le cond 201 0 (by omega)

theorem wsub_lt (a b : Nat) : wsub a b < u32Mod := by
  unfold wsub u32Mod
  exact Nat.mod_lt _ (by omega)

theorem wsub_eq_sub {a b : Nat} (hba : b ≤ a) (ha : a < u32Mod) : wsub a b = a - b := by
  unfold wsub u32Mod at *
  omega

theorem measureHigh_lt (line : Nat → Bool) (rd : Nat → Nat) :
    measureHigh line rd < 67108864 := by
  unfold measureHigh
  have h := wsub_lt (rd (measureHighEnd line rd measureFuel 0)) (rd 0)
  have : u32Mod = 67108864 * 64 := by unfold u32Mod; omega
  exact (Nat.div_lt_iff_lt_mul (by omega)).2 (by omega)

theorem bitDuration_lt (env : DHT11Env) (i : Nat) : bitDuration env i < 67108864 :=
  measureHigh_lt _ _

theorem decLenAux_le :
    ∀ fuel k n, 0 < k → k ≤ fuel → n < 10 ^ k → decLenAux fuel n ≤ k := by
  intro fuel
  induction fuel with
  | zero => intro k n hk hkf _; omega
  | succ fuel ih =>
    intro k n hk hkf hn
    unfold decLenAux
    split
    · omega
    · rename_i h10
      have hk2 : 2 ≤ k := by
        by_contra hc
        have : k = 1 := by omega
        subst this
        simp at hn
        omega
      have hdiv : n / 10 < 10 ^ (k - 1) := by
        have : 10 ^ k = 10 ^ (k - 1) * 10 := by
          conv_lhs => rw [show k = (k - 1) + 1 by omega]
          rw [pow_succ]
        refine (Nat.div_lt_iff_lt_mul (by omega)).2 ?_
        omega
      have := ih (k - 1) (n / 10) (by omega) (by omega) hdiv
      omega

theorem decLen_le_two {n : Nat} (h : n < 100) : decLen n ≤ 2 :=
  decLenAux_le 32 2 n (by omega) (by omega) (by norm_num; omega)

theorem decLen_le_three {n : Nat} (h : n < 1000) : decLen n ≤ 3 :=
  decLenAux_le 32 3 n (by omega) (by omega) (by norm_num; omega)

theorem decLen_le_eight {n : Nat} (h : n < 67108864) : decLen n ≤ 8 :=
  decLenAux_le 32 8 n (by omega) (by omega) (by norm_num; omega)

/-- The bit-start wait of the data phase for bit i. -/
def bitWait (env : DHT11Env) (i : Nat) : Nat := waitLoop (fun k => !(env.bitStart i k))

theorem bitStartsOk_def (env : DHT11Env) :
    bitStartsOk env ↔ ∀ i, i < 40 → bitWait env i < 200 := Iff.rfl

theorem updByte_testBit_ne (data : Nat → Nat) {i n : Nat} (h : i ≠ n) :
    (updByte data i (n / 8)).testBit (7 - n % 8) = (data (n / 8)).testBit (7 - n % 8) := by
  unfold updByte
  by_cases hb : n / 8 = i / 8
  · rw [if_pos hb, ← hb, Nat.testBit_lor, Nat.one_shiftLeft,
      Nat.testBit_two_pow_of_ne (by omega), Bool.or_false]
  · rw [if_neg hb]

theorem updByte_testBit_self (data : Nat → Nat) (i : Nat) :
    (updByte data i (i / 8)).testBit (7 - i % 8) = true := by
  unfold updByte
  rw [if_pos rfl, Nat.testBit_lor, Nat.one_shiftLeft, Nat.testBit_two_pow_self,
    Bool.or_true]

theorem updByte_lt (data : Nat → Nat) (i : Nat) (h : ∀ j, data j < 256) :
    ∀ j, updByte data i j < 256 := by
  intro j
  unfold updByte
  split
  · have h1 : data (i / 8) < 2 ^ 8 := h (i / 8)
    have h2 : 1 <<< (7 - i % 8) < 2 ^ 8 := by
      rw [Nat.one_shiftLeft]
      calc 2 ^ (7 - i % 8) ≤ 2 ^ 7 := Nat.pow_le_pow_right (by omega) (by omega)
      _ < 2 ^ 8 := by omega
    exact Nat.or_lt_two_pow h1 h2
  · exact h j

theorem readBitsAux_ok (env : DHT11Env) :
    ∀ fuel i data, (∀ j, i ≤ j → j < i + fuel → bitWait env j < 200) →
      (readBitsAux env fuel i data).1 = .ok := by
  intro fuel
  induction fuel with
  | zero => intro i data _; rfl
  | succ fuel ih =>
    intro i data h
    unfold readBitsAux
    rw [if_neg (by have := h i (le_refl i) (by omega); simp [bitWait] at this ⊢; omega)]
    exact ih (i + 1) _ (fun j h1 h2 => h j (by omega) (by omega))

theorem readBitsAux_untouched (env : DHT11Env) :
    ∀ fuel i data n, n < i →
      ((readBitsAux env fuel i data).2 (n / 8)).testBit (7 - n % 8) =
        (data (n / 8)).testBit (7 - n % 8) := by
  intro fuel
  induction fuel with
  | zero => intro i data n _; rfl
  | succ fuel ih =>
    intro i data n hn
    unfold readBitsAux
    dsimp only
    split
    · rfl
    · rw [ih (i + 1) _ n (by omega)]
      split
      · exact updByte_testBit_ne data (by omega)
      · rfl

theorem readBitsAux_testBit (env : DHT11Env) :
    ∀ fuel i data n, i ≤ n → n < i + fuel →
      (∀ j, i ≤ j → j < i + fuel → bitWait env j < 200) →
      (data (n / 8)).testBit (7 - n % 8) = false →
      ((readBitsAux env fuel i data).2 (n / 8)).testBit (7 - n % 8) =
        decide (40 < bitDuration env n) := by
  intro fuel
  induction fuel with
  | zero => intro i data n h1 h2; omega
  | succ fuel ih =>
    intro i data n h1 h2 hok hclear
    unfold readBitsAux
    rw [if_neg (by have := hok i (le_refl i) (by omega); simp [bitWait] at this ⊢; omega)]
    by_cases hin : i = n
    · subst hin
      rw [readBitsAux_untouched env fuel (i + 1) _ i (by omega)]
      by_cases hd : 40 < bitDuration env i
      · rw [if_pos hd, updByte_testBit_self, decide_eq_true hd]
      · rw [if_neg hd, hclear, Eq.comm, decide_eq_false hd]
    · have hbit : ((if 40 < bitDuration env i then updByte data i else data) (n / 8)).testBit
          (7 - n % 8) = false := by
        split
        · rw [updByte_testBit_ne data hin, hclear]
        · exact hclear
      exact ih (i + 1) _ n (by omega) (by omega)
        (fun j hj1 hj2 => hok j (by omega) (by omega)) hbit

theorem readBitsAux_lt (env : DHT11Env) :
    ∀ fuel i data, (∀ j, data j < 256) → ∀ j, (readBitsAux env fuel i data).2 j < 256 := by
  intro fuel
  induction fuel with
  | zero => intro i data h j; exact h j
  | succ fuel ih =>
    intro i data h j
    unfold readBitsAux
    dsimp only
    split
    · exact h j
    · refine ih (i + 1) _ ?_ j
      split
      · exact updByte_lt data i h
      · exact h

theorem readBits_ok (env : DHT11Env) (h : bitStartsOk env) : (readBits env).1 = .ok :=
  readBitsAux_ok env 40 0 _ (fun j _ h2 => h j (by omega))

theorem frameOf_testBit (env : DHT11Env) (h : bitStartsOk env) {n : Nat} (hn : n < 40) :
    (frameOf env (n / 8)).testBit (7 - n % 8) = decide (40 < bitDuration env n) := by
  unfold frameOf readBits
  exact readBitsAux_testBit env 40 0 _ n (by omega) (by omega)
    (fun j _ h2 => h j (by omega)) (by simp)

theorem frameOf_lt (env : DHT11Env) (j : Nat) : frameOf env j < 256 :=
  readBitsAux_lt env 40 0 _ (fun _ => by omega) j

theorem debugBitsAux_proj (env : DHT11Env) :
    ∀ fuel i data br tr,
      (debugBitsAux env fuel i data br tr).1 = (readBitsAux env fuel i data).1 ∧
      (debugBitsAux env fuel i data br tr).2.1 = (readBitsAux env fuel i data).2 := by
  intro fuel
  induction fuel with
  | zero => intro i data br tr; exact ⟨rfl, rfl⟩
  | succ fuel ih =>
    intro i data br tr
    unfold debugBitsAux readBitsAux
    dsimp only
    by_cases ht : 200 ≤ waitLoop fun k => !env.bitStart i k
    · rw [if_pos ht, if_pos ht]
      exact ⟨rfl, rfl⟩
    · rw [if_neg ht, if_neg ht]
      by_cases hd : 40 < bitDuration env i
      · simp only [hd, decide_eq_true_eq, if_pos, if_true]
        exact ih (i + 1) _ (br + 1) _
      · simp only [hd, if_false, decide_eq_true_eq]
        exact ih (i + 1) _ (br + 1) _

theorem debugBitsAux_br (env : DHT11Env) :
    ∀ fuel i data br tr, (debugBitsAux env fuel i data br tr).1 = .ok →
      (debugBitsAux env fuel i data br tr).2.2.1 = br + fuel := by
  intro fuel
  induction fuel with
  | zero => intro i data br tr _; rfl
  | succ fuel ih =>
    intro i data br tr hok
    unfold debugBitsAux at hok ⊢
    dsimp only at hok ⊢
    by_cases ht : 200 ≤ waitLoop fun k => !env.bitStart i k
    · rw [if_pos ht] at hok
      exact absurd hok (by simp)
    · rw [if_neg ht] at hok ⊢
      rw [ih (i + 1) _ (br + 1) _ hok]
      omega

theorem debugBitsAux_fail_tr (env : DHT11Env) :
    ∀ fuel i data br tr f, (debugBitsAux env fuel i data br tr).1 = .fail f →
      ∃ pre, (debugBitsAux env fuel i data br tr).2.2.2 = pre ++ [errEntryOf f] := by
  intro fuel
  induction fuel with
  | zero => intro i data br tr f h; exact absurd h (by simp [debugBitsAux])
  | succ fuel ih =>
    intro i data br tr f h
    unfold debugBitsAux at h ⊢
    dsimp only at h ⊢
    by_cases ht : 200 ≤ waitLoop fun k => !env.bitStart i k
    · rw [if_pos ht] at h ⊢
      refine ⟨tr, ?_⟩
      simp only [ReadOutcome.fail.injEq] at h
      rw [← h]
      rfl
    · rw [if_neg ht] at h ⊢
      exact ih (i + 1) _ (br + 1) _ f h

/-- The per-bit log entry that iteration j of the debug data phase appends
    when its sampling condition holds: the detailed form for the first 16
    bits, the sampled form afterwards. -/
def entryOfBit (env : DHT11Env) (j : Nat) : TraceEntry :=
  if j < 16 then .bitDetail j (bitDuration env j) (decide (40 < bitDuration env j))
  else .bitSampled j (bitDuration env j) (decide (40 < bitDuration env j))

/-- Sampling condition of the debug data phase: log every bit below index 16,
    afterwards only indices congruent to 7 modulo 8. -/
def sampled (j : Nat) : Bool := decide (j < 16) || decide (j % 8 = 7)

theorem debugBitsAux_tr_ok (env : DHT11Env) :
    ∀ fuel i data br tr, (∀ j, i ≤ j → j < i + fuel → bitWait env j < 200) →
      (debugBitsAux env fuel i data br tr).2.2.2 =
        tr ++ ((List.range' i fuel).filter sampled).map (entryOfBit env) := by
  intro fuel
  induction fuel with
  | zero => intro i data br tr _; simp [debugBitsAux]
  | succ fuel ih =>
    intro i data br tr hok
    unfold debugBitsAux
    dsimp only
    rw [if_neg (by have := hok i (le_refl i) (by omega); simp [bitWait] at this ⊢; omega)]
    rw [List.range'_succ, List.filter_cons]
    by_cases hi : i < 16
    · have hs : sampled i = true := by simp [sampled]; omega
      rw [if_pos hi, ih (i + 1) _ (br + 1) _ (fun j h1 h2 => hok j (by omega) (by omega))]
      simp [hs, entryOfBit, hi]
    · rw [if_neg hi]
      by_cases h8 : i % 8 = 7
      · have hs : sampled i = true := by simp [sampled]; omega
        rw [if_pos h8, ih (i + 1) _ (br + 1) _ (fun j h1 h2 => hok j (by omega) (by omega))]
        simp [hs, entryOfBit, hi]
      · have hs : sampled i = false := by simp [sampled]; omega
        rw [if_neg h8, ih (i + 1) _ (br + 1) _ (fun j h1 h2 => hok j (by omega) (by omega))]
        simp [hs]

/-- Upper bound on the number of per-bit log entries that the iterations
    from index i with the given remaining fuel can append. -/
def sampBudget : Nat → Nat → Nat
  | 0, _ => 0
  | fuel + 1, i => (if i < 16 ∨ i % 8 = 7 then 1 else 0) + sampBudget fuel (i + 1)

theorem traceLen_append (a b : List TraceEntry) :
    traceLen (a ++ b) = traceLen a + traceLen b := by
  unfold traceLen
  rw [List.map_append, List.sum_append]

theorem debugBitsAux_len (env : DHT11Env) :
    ∀ fuel i data br tr, i + fuel ≤ 40 →
      traceLen (debugBitsAux env fuel i data br tr).2.2.2 ≤
        traceLen tr + 31 * sampBudget fuel i + 28 := by
  intro fuel
  induction fuel with
  | zero =>
    intro i data br tr _
    simp only [debugBitsAux]
    omega
  | succ fuel ih =>
    intro i data br tr hle
    have hdec2 : decLen i ≤ 2 := decLen_le_two (by omega)
    have hdur : decLen (bitDuration env i) ≤ 8 := decLen_le_eight (bitDuration_lt env i)
    have hsb : sampBudget (fuel + 1) i =
        (if i < 16 ∨ i % 8 = 7 then 1 else 0) + sampBudget fuel (i + 1) := rfl
    unfold debugBitsAux
    dsimp only
    by_cases ht : 200 ≤ waitLoop fun k => !env.bitStart i k
    · rw [if_pos ht]
      have h1 : traceLen (tr ++ [TraceEntry.errBitStartTimeout i]) =
          traceLen tr + (26 + decLen i) := by
        rw [traceLen_append]; rfl
      dsimp only
      omega
    · rw [if_neg ht]
      by_cases hi : i < 16
      · rw [if_pos hi]
        have hb := ih (i + 1)
          (if decide (40 < bitDuration env i) = true then updByte data i else data) (br + 1)
          (tr ++ [.bitDetail i (bitDuration env i) (decide (40 < bitDuration env i))])
          (by omega)
        have h1 : traceLen (tr ++
            [TraceEntry.bitDetail i (bitDuration env i) (decide (40 < bitDuration env i))]) =
            traceLen tr + (21 + decLen i + decLen (bitDuration env i)) := by
          rw [traceLen_append]; rfl
        rw [if_pos (by omega : i < 16 ∨ i % 8 = 7)] at hsb
        omega
      · rw [if_neg hi]
        by_cases h8 : i % 8 = 7
        · rw [if_pos h8]
          have hb := ih (i + 1)
            (if decide (40 < bitDuration env i) = true then updByte data i else data) (br + 1)
            (tr ++ [.bitSampled i (bitDuration env i) (decide (40 < bitDuration env i))])
            (by omega)
          have h1 : traceLen (tr ++
              [TraceEntry.bitSampled i (bitDuration env i) (decide (40 < bitDuration env i))]) =
              traceLen tr + (13 + decLen i + decLen (bitDuration env i)) := by
            rw [traceLen_append]; rfl
          rw [if_pos (by omega : i < 16 ∨ i % 8 = 7)] at hsb
          omega
        · rw [if_neg h8]
          have hb := ih (i + 1)
            (if decide (40 < bitDuration env i) = true then updByte data i else data) (br + 1)
            tr (by omega)
          rw [if_neg (by omega : ¬(i < 16 ∨ i % 8 = 7))] at hsb
          omega

theorem measureHigh_cutoff (line : Nat → Bool) (rd : Nat → Nat)
    (hline : ∀ k, line k = true)
    (hmono : ∀ r, r < 20001 → rd r < rd (r + 1))
    (hbound : ∀ r, r ≤ 20002 → rd r < u32Mod) :
    200 < measureHigh line rd := by
  have hadd : ∀ r, r ≤ 20001 → rd 0 + r ≤ rd r := by
    intro r
    induction r with
    | zero => intro _; omega
    | succ r ih =>
      intro h
      have h1 := hmono r (by omega)
      have h2 := ih (by omega)
      omega
  have main : ∀ fuel k, 12864 ≤ fuel + k → fuel + k ≤ 20000 →
      200 < wsub (rd (measureHighEnd line rd fuel k)) (rd 0) / 64 := by
    intro fuel
    induction fuel with
    | zero =>
      intro k h1 h2
      show 200 < wsub (rd (k + 1)) (rd 0) / 64
      have hk1 := hadd (k + 1) (by omega)
      have hb := hbound (k + 1) (by omega)
      rw [wsub_eq_sub (by omega) hb]
      have h3 : 12865 ≤ rd (k + 1) - rd 0 := by omega
      calc 200 < 12865 / 64 := by norm_num
        _ ≤ (rd (k + 1) - rd 0) / 64 := Nat.div_le_div_right h3
    | succ fuel ih =>
      intro k h1 h2
      unfold measureHighEnd
      rw [hline k, if_pos rfl]
      by_cases hcut : 200 < wsub (rd (k + 1)) (rd 0) / 64
      · rw [if_pos hcut]
        have hm : rd (k + 1) < rd (k + 2) := hmono (k + 1) (by omega)
        have hb2 := hbound (k + 2) (by omega)
        have hb1 := hbound (k + 1) (by omega)
        have h0 := hadd (k + 1) (by omega)
        rw [wsub_eq_sub (by omega) hb1] at hcut
        rw [wsub_eq_sub (by omega) hb2]
        have hmono2 : rd (k + 1) - rd 0 ≤ rd (k + 2) - rd 0 := by omega
        calc 200 < (rd (k + 1) - rd 0) / 64 := hcut
          _ ≤ (rd (k + 2) - rd 0) / 64 := Nat.div_le_div_right hmono2
      · rw [if_neg hcut]
        exact ih (k + 1) (by omega) (by omega)
  exact main 20000 0 (by omega) (by omega)

theorem readBitsAux_step (env : DHT11Env) (fuel i : Nat) (data : Nat → Nat)
    (hw : bitWait env i < 200) (hd : 40 < bitDuration env i) :
    readBitsAux env (fuel + 1) i data = readBitsAux env fuel (i + 1) (updByte data i) := by
  conv_lhs => rw [readBitsAux]
  dsimp only
  rw [if_neg (by simp only [bitWait] at hw; omega), if_pos hd]

theorem debugBitsAux_step (env : DHT11Env) (fuel i : Nat) (data : Nat → Nat)
    (br : Nat) (tr : List TraceEntry)
    (hw : bitWait env i < 200) (hd : 40 < bitDuration env i) :
    debugBitsAux env (fuel + 1) i data br tr =
      debugBitsAux env fuel (i + 1) (updByte data i) (br + 1)
        (if i < 16 then tr ++ [.bitDetail i (bitDuration env i) true]
         else if i % 8 = 7 then tr ++ [.bitSampled i (bitDuration env i) true]
         else tr) := by
  conv_lhs => rw [debugBitsAux]
  dsimp only
  rw [if_neg (by simp only [bitWait] at hw; omega)]
  rw [decide_eq_true hd]
  rw [if_pos rfl]

/-- Environment in which the handshake succeeds, every bit start is seen at
    once, and the line then never goes low again; the cycle counter gains one
    count per read. -/
def envHigh : DHT11Env where
  initHigh := true
  ack1 := fun _ => false
  ack2 := fun _ => true
  ack3 := fun _ => false
  bitStart := fun _ _ => true
  bitLine := fun _ _ => true
  bitRd := fun _ r => r

theorem read_shape (env : DHT11Env) (app : AppState)
    (hh : handshakeOk env) (hb : bitStartsOk env) :
    dht11_sensor_read env app = validateFrame (frameOf env) app := by
  obtain ⟨h1, h2, h3⟩ := hh
  unfold dht11_sensor_read
  dsimp only
  rw [if_neg (by omega), if_neg (by omega), if_neg (by omega)]
  have hok : readBits env = (.ok, frameOf env) := by
    have h := readBits_ok env hb
    calc readBits env = ((readBits env).1, (readBits env).2) := rfl
      _ = (.ok, frameOf env) := by rw [h]; rfl
  rw [hok]

/-- Entries the debug read appends before the data phase when the handshake
    succeeds: the fixed preamble and the three handshake timing records. -/
def debugHead (env : DHT11Env) : List TraceEntry :=
  [.hdr, .pinInfo, .ledStart, .pinState env.initHigh, .startSignal, .criticalEnter,
   .releaseSignal, .inputMode, .waitForLow (waitLoop env.ack1),
   .responseLow (waitLoop fun k => !(env.ack2 k)), .responseHigh (waitLoop env.ack3),
   .dataStart]

/-- Entries the data phase of the debug read appends. -/
def debugBitsTr (env : DHT11Env) : List TraceEntry :=
  (debugBitsAux env 40 0 (fun _ => 0) 0 []).2.2.2

/-- Entries the debug read appends between the data phase and the checksum
    verdict on the successful data-phase path. -/
def debugMid (env : DHT11Env) : List TraceEntry :=
  [.criticalExitMark, .bitsReadMark 40, .timingHdr, .timingDWT, .timingThr, .timingExp,
   .timingHP,
   .rawData (frameOf env 0) (frameOf env 1) (frameOf env 2) (frameOf env 3) (frameOf env 4),
   .checksumCalc ((frameOf env 0 + frameOf env 1 + frameOf env 2 + frameOf env 3) % 256)
     (frameOf env 4)]

theorem debugBits_ok_tuple (env : DHT11Env) (hb : bitStartsOk env) :
    debugBitsAux env 40 0 (fun _ => 0) 0 [] = (.ok, frameOf env, 40, debugBitsTr env) := by
  have hp := debugBitsAux_proj env 40 0 (fun _ => 0) 0 []
  have ho : (debugBitsAux env 40 0 (fun _ => 0) 0 []).1 = .ok := by
    rw [hp.1]; exact readBits_ok env hb
  have hd : (debugBitsAux env 40 0 (fun _ => 0) 0 []).2.1 = frameOf env := hp.2
  have hbr : (debugBitsAux env 40 0 (fun _ => 0) 0 []).2.2.1 = 40 :=
    debugBitsAux_br env 40 0 _ 0 [] ho
  calc debugBitsAux env 40 0 (fun _ => 0) 0 []
      = ((debugBitsAux env 40 0 (fun _ => 0) 0 []).1,
         (debugBitsAux env 40 0 (fun _ => 0) 0 []).2.1,
         (debugBitsAux env 40 0 (fun _ => 0) 0 []).2.2.1,
         (debugBitsAux env 40 0 (fun _ => 0) 0 []).2.2.2) := rfl
    _ = (.ok, frameOf env, 40, debugBitsTr env) := by rw [ho, hd, hbr]; rfl

theorem debug_shape (env : DHT11Env) (app : AppState)
    (hh : handshakeOk env) (hb : bitStartsOk env) :
    dht11_sensor_debug_read env app =
      if (frameOf env 0 + frameOf env 1 + frameOf env 2 + frameOf env 3) % 256 ≠ frameOf env 4
      then
        (.fail .checksumMismatch, app,
          debugHead env ++ debugBitsTr env ++ debugMid env ++ [.errChecksum])
      else
        let app' : AppState := { temperature := (frameOf env 2 : Int), humidity := frameOf env 0 }
        if 100 < app'.humidity ∨ 60 < app'.temperature ∨ app'.temperature < -40 then
          (.fail .outOfRange, app',
            debugHead env ++ debugBitsTr env ++ debugMid env ++
              [.humidityVal (frameOf env 0), .temperatureVal ((frameOf env 2 : Nat) : Int),
               .errRange])
        else
          (.ok, app',
            debugHead env ++ debugBitsTr env ++ debugMid env ++
              [.humidityVal (frameOf env 0), .temperatureVal ((frameOf env 2 : Nat) : Int),
               .successMark]) := by
  obtain ⟨h1, h2, h3⟩ := hh
  unfold dht11_sensor_debug_read
  dsimp only
  rw [if_neg (by omega), if_neg (by omega), if_neg (by omega)]
  rw [debugBits_ok_tuple env hb]
  dsimp only
  by_cases hcs : (frameOf env 0 + frameOf env 1 + frameOf env 2 + frameOf env 3) % 256 ≠
      frameOf env 4
  · rw [if_pos hcs, if_pos hcs]
    simp [debugHead, debugMid, debugBitsTr]
  · rw [if_neg hcs, if_neg hcs]
    by_cases hr : 100 < frameOf env 0 ∨ 60 < ((frameOf env 2 : Nat) : Int) ∨
        ((frameOf env 2 : Nat) : Int) < -40
    · rw [if_pos hr, if_pos hr]
      simp [debugHead, debugMid, debugBitsTr]
    · rw [if_neg hr, if_neg hr]
      simp [debugHead, debugMid, debugBitsTr]

/-- C1: the claim states that both read operations decode the temperature
    with sign-magnitude interpretation.  The plain read does: frame byte
    0x85 = 133 yields temperature -5 and byte 0x18 = 24 yields 24.  The debug
    read does not: on the same valid frame 28 00 85 00 AD it stores the raw
    byte 133 as the temperature and then fails the range check, although its
    own range check tests temperature < -40, a branch that is unreachable
    without the sign decoding.  This theorem evaluates both reads at that
    frame and exhibits the divergence. -/
theorem C1_debug_read_skips_sign_decode :
    (dht11_sensor_read (envOfFrame [40, 0, 133, 0, 173]) app0).1 = .ok ∧
    (dht11_sensor_read (envOfFrame [40, 0, 133, 0, 173]) app0).2.temperature = -5 ∧
    (dht11_sensor_read (envOfFrame [40, 0, 133, 0, 173]) app0).2.humidity = 40 ∧
    (dht11_sensor_read (envOfFrame [50, 0, 24, 0, 74]) app0).2.temperature = 24 ∧
    (dht11_sensor_debug_read (envOfFrame [40, 0, 133, 0, 173]) app0).2.1.temperature = 133 ∧
    (dht11_sensor_debug_read (envOfFrame [40, 0, 133, 0, 173]) app0).1 = .fail .outOfRange ∧
    (dht11_sensor_debug_read (envOfFrame [50, 0, 24, 0, 74]) app0).2.1.temperature = 24 := by
  decide

theorem validateFrame_pass (data : Nat → Nat) (app : AppState)
    (hcs : data 4 = (data 0 + data 1 + data 2 + data 3) % 256) :
    (validateFrame data app).1 ≠ .fail .checksumMismatch ∧
    ((validateFrame data app).1 = .ok ∨ (validateFrame data app).1 = .fail .outOfRange) := by
  unfold validateFrame
  rw [if_neg (show ¬((data 0 + data 1 + data 2 + data 3) % 256 ≠ data 4) by omega)]
  dsimp only
  split
  · exact ⟨by simp, Or.inr rfl⟩
  · exact ⟨by simp, Or.inl rfl⟩

theorem validateFrame_fail (data : Nat → Nat) (app : AppState)
    (hcs : data 4 ≠ (data 0 + data 1 + data 2 + data 3) % 256) :
    validateFrame data app = (.fail .checksumMismatch, app) := by
  unfold validateFrame
  rw [if_pos (show (data 0 + data 1 + data 2 + data 3) % 256 ≠ data 4 by omega)]

/-- C2: for every environment whose handshake and data phase complete, the
    assembled frame passes checksum validation in both read operations
    exactly when its fifth byte equals the sum of the first four bytes
    modulo 256; when it differs, both reads fail with ChecksumMismatch, the
    plain read returns false, and the application state is left unchanged,
    with no retry. -/
theorem C2_checksum_law (env : DHT11Env) (app : AppState)
    (hh : handshakeOk env) (hb : bitStartsOk env) :
    (frameOf env 4 = (frameOf env 0 + frameOf env 1 + frameOf env 2 + frameOf env 3) % 256 →
       (dht11_sensor_read env app).1 ≠ .fail .checksumMismatch ∧
       (dht11_sensor_debug_read env app).1 ≠ .fail .checksumMismatch) ∧
    (frameOf env 4 ≠ (frameOf env 0 + frameOf env 1 + frameOf env 2 + frameOf env 3) % 256 →
       (dht11_sensor_read env app).1 = .fail .checksumMismatch ∧
       outcomeBool (dht11_sensor_read env app).1 = false ∧
       (dht11_sensor_read env app).2 = app ∧
       (dht11_sensor_debug_read env app).1 = .fail .checksumMismatch ∧
       (dht11_sensor_debug_read env app).2.1 = app) := by
  have hplain := read_shape env app hh hb
  have hdbg := debug_shape env app hh hb
  constructor
  · intro hcs
    constructor
    · rw [hplain]
      exact (validateFrame_pass (frameOf env) app hcs).1
    · rw [hdbg]
      rw [if_neg (show ¬((frameOf env 0 + frameOf env 1 + frameOf env 2 + frameOf env 3) % 256 ≠
        frameOf env 4) by omega)]
      dsimp only
      split
      · simp
      · simp
  · intro hcs
    have hvf := validateFrame_fail (frameOf env) app (by omega)
    rw [hplain, hdbg, hvf,
      if_pos (show (frameOf env 0 + frameOf env 1 + frameOf env 2 + frameOf env 3) % 256 ≠
        frameOf env 4 by omega)]
    exact ⟨rfl, rfl, rfl, rfl, rfl⟩

theorem C2_checksum_law_witness :
    (dht11_sensor_read (envOfFrame [50, 0, 24, 0, 74]) app0).1 ≠ .fail .checksumMismatch ∧
    (dht11_sensor_read (envOfFrame [50, 0, 24, 0, 75]) app0).1 = .fail .checksumMismatch :=
  ⟨((C2_checksum_law _ app0 (by decide) (by decide)).1 (by decide)).1,
   ((C2_checksum_law _ app0 (by decide) (by decide)).2 (by decide)).1⟩

/-- C3: for every checksum-valid frame, each read returns true exactly when
    the reading it decoded and stored satisfies humidity at most 100 and
    temperature between -40 and 60, and otherwise fails with OutOfRange; the
    boundary values are decided exactly, witnessed on concrete frames with
    humidity 100 and 101 and temperatures -40, -41, 60 and 61 (through the
    sign-decoding plain read, bytes 168, 169, 60, 61). -/
theorem C3_range_check (env : DHT11Env) (app : AppState)
    (hh : handshakeOk env) (hb : bitStartsOk env)
    (hcs : frameOf env 4 =
      (frameOf env 0 + frameOf env 1 + frameOf env 2 + frameOf env 3) % 256) :
    ((dht11_sensor_read env app).1 = .ok ↔
       (dht11_sensor_read env app).2.humidity ≤ 100 ∧
       -40 ≤ (dht11_sensor_read env app).2.temperature ∧
       (dht11_sensor_read env app).2.temperature ≤ 60) ∧
    ((dht11_sensor_read env app).1 = .ok ∨
       (dht11_sensor_read env app).1 = .fail .outOfRange) ∧
    ((dht11_sensor_debug_read env app).1 = .ok ↔
       (dht11_sensor_debug_read env app).2.1.humidity ≤ 100 ∧
       -40 ≤ (dht11_sensor_debug_read env app).2.1.temperature ∧
       (dht11_sensor_debug_read env app).2.1.temperature ≤ 60) ∧
    ((dht11_sensor_debug_read env app).1 = .ok ∨
       (dht11_sensor_debug_read env app).1 = .fail .outOfRange) ∧
    (dht11_sensor_read (envOfFrame [100, 0, 0, 0, 100]) app0).1 = .ok ∧
    (dht11_sensor_read (envOfFrame [101, 0, 0, 0, 101]) app0).1 = .fail .outOfRange ∧
    (dht11_sensor_read (envOfFrame [0, 0, 168, 0, 168]) app0).1 = .ok ∧
    (dht11_sensor_read (envOfFrame [0, 0, 168, 0, 168]) app0).2.temperature = -40 ∧
    (dht11_sensor_read (envOfFrame [0, 0, 169, 0, 169]) app0).1 = .fail .outOfRange ∧
    (dht11_sensor_read (envOfFrame [0, 0, 169, 0, 169]) app0).2.temperature = -41 ∧
    (dht11_sensor_read (envOfFrame [0, 0, 60, 0, 60]) app0).1 = .ok ∧
    (dht11_sensor_read (envOfFrame [0, 0, 61, 0, 61]) app0).1 = .fail .outOfRange := by
  have hplain := read_shape env app hh hb
  have hdbg := debug_shape env app hh hb
  refine ⟨?_, ?_, ?_, ?_, by decide, by decide, by decide, by decide, by decide, by decide,
    by decide, by decide⟩
  · rw [hplain]
    unfold validateFrame
    rw [if_neg (show ¬((frameOf env 0 + frameOf env 1 + frameOf env 2 + frameOf env 3) % 256 ≠
      frameOf env 4) by omega)]
    dsimp only
    split
    · rename_i hC
      simp only [ReadOutcome.ok, iff_iff_implies_and_implies]
      constructor
      · intro h; exact absurd h (by simp)
      · intro h; omega
    · rename_i hC
      push_neg at hC
      simp only [true_iff, iff_true_intro rfl]
      refine ⟨by omega, by omega, by omega⟩
  · rw [hplain]
    exact (validateFrame_pass (frameOf env) app hcs).2
  · rw [hdbg]
    rw [if_neg (show ¬((frameOf env 0 + frameOf env 1 + frameOf env 2 + frameOf env 3) % 256 ≠
      frameOf env 4) by omega)]
    dsimp only
    split
    · rename_i hC
      dsimp only
      constructor
      · intro h; exact absurd h (by simp)
      · intro h; omega
    · rename_i hC
      push_neg at hC
      dsimp only
      constructor
      · intro _; refine ⟨by omega, by omega, by omega⟩
      · intro _; rfl
  · rw [hdbg]
    rw [if_neg (show ¬((frameOf env 0 + frameOf env 1 + frameOf env 2 + frameOf env 3) % 256 ≠
      frameOf env 4) by omega)]
    dsimp only
    split
    · exact Or.inr rfl
    · exact Or.inl rfl

theorem C3_range_check_witness :
    (dht11_sensor_read (envOfFrame [50, 0, 24, 0, 74]) app0).1 = .ok ↔
      (dht11_sensor_read (envOfFrame [50, 0, 24, 0, 74]) app0).2.humidity ≤ 100 ∧
      -40 ≤ (dht11_sensor_read (envOfFrame [50, 0, 24, 0, 74]) app0).2.temperature ∧
      (dht11_sensor_read (envOfFrame [50, 0, 24, 0, 74]) app0).2.temperature ≤ 60 :=
  (C3_range_check _ app0 (by decide) (by decide) (by decide)).1

theorem measureHighEnd_low (rd : Nat → Nat) (fuel k : Nat) :
    measureHighEnd (fun _ => false) rd fuel k = k + 1 := by
  cases fuel with
  | zero => rfl
  | succ fuel => simp [measureHighEnd]

theorem measureHigh_low (rd : Nat → Nat) :
    measureHigh (fun _ => false) rd = wsub (rd 1) (rd 0) / 64 := by
  unfold measureHigh
  rw [measureHighEnd_low]

theorem bitDuration_envOfDur (d n : Nat) (hd : d < 67108864) :
    bitDuration (envOfDur d) n = d := by
  unfold bitDuration
  have h1 : (envOfDur d).bitLine n = fun _ => false := rfl
  have h2 : (envOfDur d).bitRd n = fun r => if r = 0 then 0 else 64 * d := rfl
  rw [h1, h2, measureHigh_low]
  have h3 : wsub (64 * d) 0 = 64 * d := by
    unfold wsub u32Mod
    omega
  show wsub (if (1 : Nat) = 0 then 0 else 64 * d) (if (0 : Nat) = 0 then 0 else 64 * d) / 64 = d
  rw [if_neg (by omega : ¬(1 : Nat) = 0), if_pos (rfl : (0 : Nat) = 0), h3]
  exact Nat.mul_div_cancel_left d (by omega)

/-- C4: the data phases of both read operations classify a bit as logical 1
    exactly when its measured high duration d exceeds 40 microseconds: in an
    environment where every bit measures d, the assembled frame carries bit
    value (40 < d) at every position, the debug data phase assembles the same
    frame, and the concrete durations 41, 40 and 0 give bit values 1, 0 and 0. -/
theorem C4_bit_threshold (d n : Nat) (hd : d < 67108864) (hn : n < 40) :
    bitDuration (envOfDur d) n = d ∧
    (frameOf (envOfDur d) (n / 8)).testBit (7 - n % 8) = decide (40 < d) ∧
    (debugBitsAux (envOfDur d) 40 0 (fun _ => 0) 0 []).2.1 (n / 8) =
      frameOf (envOfDur d) (n / 8) ∧
    (frameOf (envOfDur 41) 0).testBit 7 = true ∧
    (frameOf (envOfDur 40) 0).testBit 7 = false ∧
    (frameOf (envOfDur 0) 0).testBit 7 = false := by
  have hdur := bitDuration_envOfDur d n hd
  have hb : bitStartsOk (envOfDur d) := by
    intro i _
    show waitLoop (fun k => !(envOfDur d).bitStart i k) < 200
    rw [show (fun k => !(envOfDur d).bitStart i k) = fun _ => false from rfl]
    decide
  refine ⟨hdur, ?_, ?_, by decide, by decide, by decide⟩
  · rw [frameOf_testBit (envOfDur d) hb hn, hdur]
  · rw [(debugBitsAux_proj (envOfDur d) 40 0 _ 0 []).2]
    rfl

theorem C4_bit_threshold_witness :
    bitDuration (envOfDur 70) 0 = 70 ∧
    (frameOf (envOfDur 70) (0 / 8)).testBit (7 - 0 % 8) = decide (40 < 70) ∧
    (debugBitsAux (envOfDur 70) 40 0 (fun _ => 0) 0 []).2.1 (0 / 8) =
      frameOf (envOfDur 70) (0 / 8) ∧
    (frameOf (envOfDur 41) 0).testBit 7 = true ∧
    (frameOf (envOfDur 40) 0).testBit 7 = false ∧
    (frameOf (envOfDur 0) 0).testBit 7 = false :=
  C4_bit_threshold 70 0 (by norm_num) (by norm_num)

/-- C5: every data phase whose bit-start waits all succeed classifies exactly
    40 bits and packs them most-significant bit first in encounter order:
    the phase completes, bit n of the frame sits at bit position 7 - n mod 8
    of byte n / 8 and equals the threshold comparison of the measured
    duration of bit n, every frame byte is an 8-bit value, and the debug data
    phase completes with the identical frame. -/
theorem C5_packing (env : DHT11Env) (hb : bitStartsOk env) :
    (readBits env).1 = .ok ∧
    (∀ n, n < 40 →
      (frameOf env (n / 8)).testBit (7 - n % 8) = decide (40 < bitDuration env n)) ∧
    (∀ j, frameOf env j < 256) ∧
    (debugBitsAux env 40 0 (fun _ => 0) 0 []).1 = .ok ∧
    (debugBitsAux env 40 0 (fun _ => 0) 0 []).2.1 = frameOf env := by
  refine ⟨readBits_ok env hb, fun n hn => frameOf_testBit env hb hn, frameOf_lt env, ?_, ?_⟩
  · rw [(debugBitsAux_proj env 40 0 _ 0 []).1]
    exact readBits_ok env hb
  · exact (debugBitsAux_proj env 40 0 _ 0 []).2

theorem C5_packing_witness :
    (readBits (envOfFrame [50, 0, 24, 0, 74])).1 = .ok ∧
    (frameOf (envOfFrame [50, 0, 24, 0, 74]) (9 / 8)).testBit (7 - 9 % 8) =
      decide (40 < bitDuration (envOfFrame [50, 0, 24, 0, 74]) 9) ∧
    frameOf (envOfFrame [50, 0, 24, 0, 74]) 0 < 256 := by
  have h := C5_packing (envOfFrame [50, 0, 24, 0, 74]) (by decide)
  exact ⟨h.1, h.2.1 9 (by norm_num), h.2.2.1 0⟩

/-- C10: when the line stays high through the 200 microsecond cutoff of the
    high-period measurement and the cycle counter advances at every read, the
    measurement loop terminates through the cutoff with a duration above 200,
    hence above the 40 microsecond threshold, and both data phases classify
    the bit as logical 1 and step to the next bit with no failure; the
    BitTimeout failure can arise only from the bit-start wait, which the
    hypothesis discharges. -/
theorem C10_cutoff_classifies_one (line : Nat → Bool) (rd : Nat → Nat) (env : DHT11Env)
    (i fuel br : Nat) (data : Nat → Nat) (tr : List TraceEntry)
    (hline : ∀ k, line k = true)
    (hmono : ∀ r, r < 20001 → rd r < rd (r + 1))
    (hbound : ∀ r, r ≤ 20002 → rd r < u32Mod)
    (hLe : env.bitLine i = line) (hRe : env.bitRd i = rd)
    (hw : bitWait env i < 200) :
    200 < bitDuration env i ∧
    40 < bitDuration env i ∧
    readBitsAux env (fuel + 1) i data = readBitsAux env fuel (i + 1) (updByte data i) ∧
    debugBitsAux env (fuel + 1) i data br tr =
      debugBitsAux env fuel (i + 1) (updByte data i) (br + 1)
        (if i < 16 then tr ++ [.bitDetail i (bitDuration env i) true]
         else if i % 8 = 7 then tr ++ [.bitSampled i (bitDuration env i) true]
         else tr) := by
  have h200 : 200 < bitDuration env i := by
    unfold bitDuration
    rw [hLe, hRe]
    exact measureHigh_cutoff line rd hline hmono hbound
  exact ⟨h200, by omega, readBitsAux_step env fuel i data hw (by omega),
    debugBitsAux_step env fuel i data br tr hw (by omega)⟩

theorem C10_cutoff_classifies_one_witness :
    200 < bitDuration envHigh 0 ∧
    40 < bitDuration envHigh 0 ∧
    readBitsAux envHigh (39 + 1) 0 (fun _ => 0) =
      readBitsAux envHigh 39 (0 + 1) (updByte (fun _ => 0) 0) ∧
    debugBitsAux envHigh (39 + 1) 0 (fun _ => 0) 0 [] =
      debugBitsAux envHigh 39 (0 + 1) (updByte (fun _ => 0) 0) (0 + 1)
        (if 0 < 16 then [] ++ [.bitDetail 0 (bitDuration envHigh 0) true]
         else if 0 % 8 = 7 then [] ++ [.bitSampled 0 (bitDuration envHigh 0) true]
         else []) :=
  C10_cutoff_classifies_one (fun _ => true) (fun r => r) envHigh 0 39 0 (fun _ => 0) []
    (fun _ => rfl) (fun r _ => Nat.lt_succ_self r)
    (fun r hr => by show r < u32Mod; unfold u32Mod; omega) rfl rfl (by decide)

/-- C7 counterexample: the claim states that no failed read changes the
    stored temperature and humidity fields.  On the checksum-valid frame
    65 00 00 00 65 (humidity 101), both reads assign the fields before the
    range check, fail with OutOfRange, and leave humidity 101 in place of
    the previous 50. -/
theorem C7_outOfRange_overwrites_fields :
    app0.humidity = 50 ∧
    (dht11_sensor_read (envOfFrame [101, 0, 0, 0, 101]) app0).1 = .fail .outOfRange ∧
    (dht11_sensor_read (envOfFrame [101, 0, 0, 0, 101]) app0).2.humidity = 101 ∧
    (dht11_sensor_debug_read (envOfFrame [101, 0, 0, 0, 101]) app0).1 = .fail .outOfRange ∧
    (dht11_sensor_debug_read (envOfFrame [101, 0, 0, 0, 101]) app0).2.1.humidity = 101 := by
  decide

theorem read_app_cases (env : DHT11Env) (app : AppState) :
    (dht11_sensor_read env app).2 = app ∨
    (dht11_sensor_read env app).1 = .fail .outOfRange ∨
    (dht11_sensor_read env app).1 = .ok := by
  unfold dht11_sensor_read validateFrame
  dsimp only
  split
  · exact Or.inl rfl
  · split
    · exact Or.inl rfl
    · split
      · exact Or.inl rfl
      · split
        · exact Or.inl rfl
        · split
          · exact Or.inl rfl
          · split
            · exact Or.inr (Or.inl rfl)
            · exact Or.inr (Or.inr rfl)

theorem debugRead_app_cases (env : DHT11Env) (app : AppState) :
    (dht11_sensor_debug_read env app).2.1 = app ∨
    (dht11_sensor_debug_read env app).1 = .fail .outOfRange ∨
    (dht11_sensor_debug_read env app).1 = .ok := by
  unfold dht11_sensor_debug_read
  dsimp only
  split
  · exact Or.inl rfl
  · split
    · exact Or.inl rfl
    · split
      · exact Or.inl rfl
      · split
        · exact Or.inl rfl
        · split
          · exact Or.inl rfl
          · split
            · exact Or.inr (Or.inl rfl)
            · exact Or.inr (Or.inr rfl)

/-- C7 amended: a read that fails before the conversion step, that is with
    any failure kind other than OutOfRange, leaves the application state
    unchanged in both read operations; an OutOfRange failure stores the
    decoded out-of-range values although the call still returns false. -/
theorem C7_early_failure_preserves_fields (env : DHT11Env) (app : AppState) (f : DHT11Failure) :
    ((dht11_sensor_read env app).1 = .fail f → f ≠ .outOfRange →
       (dht11_sensor_read env app).2 = app) ∧
    ((dht11_sensor_debug_read env app).1 = .fail f → f ≠ .outOfRange →
       (dht11_sensor_debug_read env app).2.1 = app) := by
  constructor
  · intro h hne
    rcases read_app_cases env app with hc | hc | hc
    · exact hc
    · rw [hc] at h
      simp only [ReadOutcome.fail.injEq] at h
      exact absurd h.symm hne
    · rw [hc] at h
      exact absurd h (by simp)
  · intro h hne
    rcases debugRead_app_cases env app with hc | hc | hc
    · exact hc
    · rw [hc] at h
      simp only [ReadOutcome.fail.injEq] at h
      exact absurd h.symm hne
    · rw [hc] at h
      exact absurd h (by simp)

theorem C7_early_failure_preserves_fields_witness :
    (dht11_sensor_read (envOfFrame [1, 0, 0, 0, 99]) app0).2 = app0 ∧
    (dht11_sensor_debug_read (envOfFrame [1, 0, 0, 0, 99]) app0).2.1 = app0 :=
  ⟨(C7_early_failure_preserves_fields (envOfFrame [1, 0, 0, 0, 99]) app0
      .checksumMismatch).1 (by decide) (by decide),
   (C7_early_failure_preserves_fields (envOfFrame [1, 0, 0, 0, 99]) app0
      .checksumMismatch).2 (by decide) (by decide)⟩

theorem debugBitsAux_fail_kind (env : DHT11Env) :
    ∀ fuel i data br tr f, (debugBitsAux env fuel i data br tr).1 = .fail f →
      ∃ j, f = .bitTimeout j := by
  intro fuel
  induction fuel with
  | zero => intro i data br tr f h; exact absurd h (by simp [debugBitsAux])
  | succ fuel ih =>
    intro i data br tr f h
    unfold debugBitsAux at h
    dsimp only at h
    by_cases ht : 200 ≤ waitLoop fun k => !env.bitStart i k
    · rw [if_pos ht] at h
      simp only [ReadOutcome.fail.injEq] at h
      exact ⟨i, h.symm⟩
    · rw [if_neg ht] at h
      exact ih (i + 1) _ (br + 1) _ f h

theorem debugRead_outcome_cases (env : DHT11Env) (app : AppState) :
    (∃ pre, (dht11_sensor_debug_read env app).1 = .fail .noResponse ∧
       (dht11_sensor_debug_read env app).2.2 = pre ++ [.errNoResponse, .checkWiring]) ∨
    (∃ f pre, (dht11_sensor_debug_read env app).1 = .fail f ∧ f ≠ .noResponse ∧
       (dht11_sensor_debug_read env app).2.2 = pre ++ [errEntryOf f]) ∨
    (dht11_sensor_debug_read env app).1 = .ok := by
  unfold dht11_sensor_debug_read
  dsimp only
  split
  · exact Or.inl ⟨_, rfl, rfl⟩
  · split
    · exact Or.inr (Or.inl ⟨.invalidResponseTiming, _, rfl, by simp, rfl⟩)
    · split
      · exact Or.inr (Or.inl ⟨.responseTooLong, _, rfl, by simp, rfl⟩)
      · split
        · rename_i f dd b trb heq
          obtain ⟨j, hj⟩ := debugBitsAux_fail_kind env 40 0 (fun _ => 0) 0 [] f
            (by rw [heq])
          obtain ⟨pre, hpre⟩ := debugBitsAux_fail_tr env 40 0 (fun _ => 0) 0 [] f
            (by rw [heq])
          rw [heq] at hpre
          dsimp only at hpre
          refine Or.inr (Or.inl ⟨f, ?pre, rfl, ?hne, ?htr⟩)
          case hne => rw [hj]; simp
          case htr =>
            dsimp only
            rw [hpre]
            exact (List.append_assoc _ _ _).symm
        · split
          · exact Or.inr (Or.inl ⟨.checksumMismatch, _, rfl, by simp, rfl⟩)
          · split
            · exact Or.inr (Or.inl ⟨.outOfRange, _, rfl, by simp, rfl⟩)
            · exact Or.inr (Or.inr rfl)

/-- C6 counterexample: the claim states that a failing instrumented read
    ends its trace with the entry naming the failure kind.  In the
    NoResponse case the driver appends a wiring-check hint after the error
    entry, so the final trace entry is the hint, which names no failure
    kind. -/
theorem C6_noResponse_final_entry_is_hint :
    (dht11_sensor_debug_read envNoResp app0).1 = .fail .noResponse ∧
    (dht11_sensor_debug_read envNoResp app0).2.2 =
      [.hdr, .pinInfo, .ledStart, .pinState true, .startSignal, .criticalEnter,
       .releaseSignal, .inputMode, .waitForLow 200, .errNoResponse, .checkWiring] ∧
    (dht11_sensor_debug_read envNoResp app0).2.2.getLast? = some .checkWiring ∧
    errEntryOf .noResponse = .errNoResponse ∧
    (TraceEntry.checkWiring ≠ TraceEntry.errNoResponse) := by
  refine ⟨by decide, by decide, by decide, by decide, by decide⟩

/-- C6 amended: every failure kind terminates the read at the phase that
    detected it with no retry; in plain-read mode every failure kind returns
    the boolean false; in instrumented mode the failing trace ends with the
    entry naming the specific failure kind, except that a NoResponse failure
    appends one wiring-check hint entry directly after its error entry; in
    either form nothing further is logged after the error entry. -/
theorem C6_failure_terminal (env : DHT11Env) (app : AppState) (f : DHT11Failure) :
    ((dht11_sensor_read env app).1 = .fail f →
       outcomeBool (dht11_sensor_read env app).1 = false) ∧
    ((dht11_sensor_debug_read env app).1 = .fail f →
       outcomeBool (dht11_sensor_debug_read env app).1 = false ∧
       (f = .noResponse → ∃ pre, (dht11_sensor_debug_read env app).2.2 =
          pre ++ [.errNoResponse, .checkWiring]) ∧
       (f ≠ .noResponse → ∃ pre, (dht11_sensor_debug_read env app).2.2 =
          pre ++ [errEntryOf f])) := by
  constructor
  · intro h
    rw [h]
    rfl
  · intro h
    refine ⟨by rw [h]; rfl, ?_, ?_⟩
    · intro hf
      subst hf
      rcases debugRead_outcome_cases env app with ⟨pre, _, htr⟩ | ⟨g, pre, ho, hg, _⟩ | ho
      · exact ⟨pre, htr⟩
      · rw [ho] at h
        simp only [ReadOutcome.fail.injEq] at h
        exact absurd h hg
      · rw [ho] at h
        exact absurd h (by simp)
    · intro hf
      rcases debugRead_outcome_cases env app with ⟨pre, ho, _⟩ | ⟨g, pre, ho, _, htr⟩ | ho
      · rw [ho] at h
        simp only [ReadOutcome.fail.injEq] at h
        exact absurd h.symm hf
      · rw [ho] at h
        simp only [ReadOutcome.fail.injEq] at h
        subst h
        exact ⟨pre, htr⟩
      · rw [ho] at h
        exact absurd h (by simp)

theorem C6_failure_terminal_witness :
    outcomeBool (dht11_sensor_read envNoResp app0).1 = false ∧
    outcomeBool (dht11_sensor_debug_read envNoResp app0).1 = false :=
  ⟨(C6_failure_terminal envNoResp app0 .noResponse).1 (by decide),
   ((C6_failure_terminal envNoResp app0 .noResponse).2 (by decide)).1⟩

theorem traceLen_nil : traceLen [] = 0 := rfl

theorem traceLen_cons (e : TraceEntry) (l : List TraceEntry) :
    traceLen (e :: l) = entryLen e + traceLen l := by
  simp [traceLen]

theorem floatLen_byte {m : Nat} (hm : m < 256) : floatLen (m : Int) ≤ 5 := by
  unfold floatLen
  rw [if_neg (by omega : ¬(m : Int) < 0), Int.natAbs_ofNat]
  have := decLen_le_three (by omega : m < 1000)
  omega

theorem debugRead_traceLen_le (env : DHT11Env) (app : AppState) :
    traceLen (dht11_sensor_debug_read env app).2.2 ≤ debugLogCap := by
  have hw1 := waitLoop_le env.ack1
  have hw2 := waitLoop_le (fun k => !(env.ack2 k))
  have hw3 := waitLoop_le env.ack3
  have hd1 : decLen (waitLoop env.ack1) ≤ 3 := decLen_le_three (by omega)
  have hd2 : decLen (waitLoop fun k => !(env.ack2 k)) ≤ 3 := decLen_le_three (by omega)
  have hd3 : decLen (waitLoop env.ack3) ≤ 3 := decLen_le_three (by omega)
  have hP : (if env.initHigh = true then 27 else 26) ≤ 27 := by split <;> omega
  have hcap : debugLogCap = 2048 := rfl
  have hsb : sampBudget 40 0 = 19 := by decide
  have hnil : traceLen ([] : List TraceEntry) = 0 := rfl
  unfold dht11_sensor_debug_read
  dsimp only
  split
  · simp only [traceLen_append, traceLen_cons, traceLen_nil, entryLen]
    omega
  · split
    · simp only [traceLen_append, traceLen_cons, traceLen_nil, entryLen]
      omega
    · split
      · simp only [traceLen_append, traceLen_cons, traceLen_nil, entryLen]
        omega
      · split
        · rename_i f d1 b1 trb heq
          have hlen := debugBitsAux_len env 40 0 (fun _ => 0) 0 [] (by omega)
          rw [heq] at hlen
          dsimp only at hlen
          simp only [traceLen_append, traceLen_cons, traceLen_nil, entryLen]
          omega
        · rename_i dd b trb heq
          have hlen := debugBitsAux_len env 40 0 (fun _ => 0) 0 [] (by omega)
          rw [heq] at hlen
          dsimp only at hlen
          have hbr := debugBitsAux_br env 40 0 (fun _ => 0) 0 [] (by rw [heq])
          rw [heq] at hbr
          dsimp only at hbr
          have hdb : decLen b ≤ 2 := by rw [hbr]; exact decLen_le_two (by omega)
          have hproj := (debugBitsAux_proj env 40 0 (fun _ => 0) 0 []).2
          rw [heq] at hproj
          dsimp only at hproj
          have hdd : ∀ j, dd j < 256 := by
            intro j
            rw [hproj]
            exact readBitsAux_lt env 40 0 _ (fun _ => by omega) j
          have hfl0 : floatLen ((dd 0 : Nat) : Int) ≤ 5 := floatLen_byte (hdd 0)
          have hfl2 : floatLen ((dd 2 : Nat) : Int) ≤ 5 := floatLen_byte (hdd 2)
          split
          · simp only [traceLen_append, traceLen_cons, traceLen_nil, entryLen]
            omega
          · split
            · simp only [traceLen_append, traceLen_cons, traceLen_nil, entryLen]
              omega
            · simp only [traceLen_append, traceLen_cons, traceLen_nil, entryLen]
              omega

/-- C9: on every instrumented read, the offset at which each trace append
    writes, which is the total formatted length of the entries already
    appended, never exceeds the 2048-byte capacity of the debug_log buffer:
    the snprintf return-value accumulation stays within bounds because the
    longest possible trace is below the capacity, so appends are never even
    truncated and the read cannot fault. -/
theorem C9_trace_within_capacity (env : DHT11Env) (app : AppState)
    (pre suf : List TraceEntry)
    (hsplit : (dht11_sensor_debug_read env app).2.2 = pre ++ suf) :
    traceLen pre ≤ debugLogCap := by
  have htot := debugRead_traceLen_le env app
  rw [hsplit, traceLen_append] at htot
  omega

theorem C9_trace_within_capacity_witness :
    traceLen (dht11_sensor_debug_read envNoResp app0).2.2 ≤ debugLogCap :=
  C9_trace_within_capacity envNoResp app0 _ [] (List.append_nil _).symm

theorem debugBitsTr_eq (env : DHT11Env) (hb : bitStartsOk env) :
    debugBitsTr env = ((List.range' 0 40).filter sampled).map (entryOfBit env) := by
  unfold debugBitsTr
  rw [debugBitsAux_tr_ok env 40 0 _ 0 [] (fun j _ h2 => hb j (by omega))]
  simp

theorem mem_debugBitsTr_detail (env : DHT11Env) (hb : bitStartsOk env) (i d : Nat) (v : Bool) :
    TraceEntry.bitDetail i d v ∈ debugBitsTr env ↔
      i < 16 ∧ d = bitDuration env i ∧ v = decide (40 < bitDuration env i) := by
  rw [debugBitsTr_eq env hb]
  rw [List.mem_map]
  constructor
  · rintro ⟨j, hjmem, hje⟩
    rw [List.mem_filter] at hjmem
    unfold entryOfBit at hje
    by_cases hj16 : j < 16
    · rw [if_pos hj16] at hje
      simp only [TraceEntry.bitDetail.injEq] at hje
      obtain ⟨h1, h2, h3⟩ := hje
      subst h1
      exact ⟨hj16, h2.symm, h3.symm⟩
    · rw [if_neg hj16] at hje
      exact absurd hje (by simp)
  · rintro ⟨h16, hd, hv⟩
    refine ⟨i, ?_, ?_⟩
    · rw [List.mem_filter, List.mem_range'_1]
      exact ⟨⟨by omega, by omega⟩, by simp [sampled]; omega⟩
    · unfold entryOfBit
      rw [if_pos h16, hd, hv]

theorem mem_debugBitsTr_sampled (env : DHT11Env) (hb : bitStartsOk env) (i d : Nat) (v : Bool) :
    TraceEntry.bitSampled i d v ∈ debugBitsTr env ↔
      16 ≤ i ∧ i < 40 ∧ i % 8 = 7 ∧
      d = bitDuration env i ∧ v = decide (40 < bitDuration env i) := by
  rw [debugBitsTr_eq env hb]
  rw [List.mem_map]
  constructor
  · rintro ⟨j, hjmem, hje⟩
    rw [List.mem_filter, List.mem_range'_1] at hjmem
    obtain ⟨⟨_, hj40⟩, hjs⟩ := hjmem
    unfold entryOfBit at hje
    by_cases hj16 : j < 16
    · rw [if_pos hj16] at hje
      exact absurd hje (by simp)
    · rw [if_neg hj16] at hje
      simp only [TraceEntry.bitSampled.injEq] at hje
      obtain ⟨h1, h2, h3⟩ := hje
      subst h1
      simp only [sampled, Bool.or_eq_true, decide_eq_true_eq] at hjs
      refine ⟨by omega, by omega, by omega, h2.symm, h3.symm⟩
  · rintro ⟨h16, h40, h8, hd, hv⟩
    refine ⟨i, ?_, ?_⟩
    · rw [List.mem_filter, List.mem_range'_1]
      exact ⟨⟨by omega, by omega⟩, by simp [sampled]; omega⟩
    · unfold entryOfBit
      rw [if_neg (by omega), hd, hv]

theorem mem_debugRead_bit (env : DHT11Env) (app : AppState)
    (hh : handshakeOk env) (hb : bitStartsOk env) (i d : Nat) (v : Bool) :
    (TraceEntry.bitDetail i d v ∈ (dht11_sensor_debug_read env app).2.2 ↔
       TraceEntry.bitDetail i d v ∈ debugBitsTr env) ∧
    (TraceEntry.bitSampled i d v ∈ (dht11_sensor_debug_read env app).2.2 ↔
       TraceEntry.bitSampled i d v ∈ debugBitsTr env) := by
  rw [debug_shape env app hh hb]
  split
  · constructor <;> simp [debugHead, debugMid]
  · dsimp only
    split
    · constructor <;> simp [debugHead, debugMid]
    · constructor <;> simp [debugHead, debugMid]

/-- C8: on an instrumented read whose handshake and data phase complete, the
    data phase records a per-bit entry with the measured duration and decoded
    value for every bit index below 16 unconditionally, and for indices 16
    through 39 exactly at every 8th index, those congruent to 7 modulo 8
    (23, 31 and 39); no other bit index produces an entry. -/
theorem C8_bit_sampling (env : DHT11Env) (app : AppState)
    (hh : handshakeOk env) (hb : bitStartsOk env) :
    (∀ i, i < 16 →
       TraceEntry.bitDetail i (bitDuration env i) (decide (40 < bitDuration env i)) ∈
         (dht11_sensor_debug_read env app).2.2) ∧
    (∀ i, 16 ≤ i → i < 40 → i % 8 = 7 →
       TraceEntry.bitSampled i (bitDuration env i) (decide (40 < bitDuration env i)) ∈
         (dht11_sensor_debug_read env app).2.2) ∧
    (∀ i d v, TraceEntry.bitDetail i d v ∈ (dht11_sensor_debug_read env app).2.2 →
       i < 16) ∧
    (∀ i d v, TraceEntry.bitSampled i d v ∈ (dht11_sensor_debug_read env app).2.2 →
       16 ≤ i ∧ i < 40 ∧ i % 8 = 7) := by
  refine ⟨?_, ?_, ?_, ?_⟩
  · intro i h16
    rw [(mem_debugRead_bit env app hh hb i _ _).1,
      mem_debugBitsTr_detail env hb]
    exact ⟨h16, rfl, rfl⟩
  · intro i h16 h40 h8
    rw [(mem_debugRead_bit env app hh hb i _ _).2,
      mem_debugBitsTr_sampled env hb]
    exact ⟨h16, h40, h8, rfl, rfl⟩
  · intro i d v hmem
    rw [(mem_debugRead_bit env app hh hb i d v).1,
      mem_debugBitsTr_detail env hb] at hmem
    exact hmem.1
  · intro i d v hmem
    rw [(mem_debugRead_bit env app hh hb i d v).2,
      mem_debugBitsTr_sampled env hb] at hmem
    exact ⟨hmem.1, hmem.2.1, hmem.2.2.1⟩

theorem C8_bit_sampling_witness :
    TraceEntry.bitDetail 3 (bitDuration (envOfFrame [50, 0, 24, 0, 74]) 3)
        (decide (40 < bitDuration (envOfFrame [50, 0, 24, 0, 74]) 3)) ∈
      (dht11_sensor_debug_read (envOfFrame [50, 0, 24, 0, 74]) app0).2.2 ∧
    TraceEntry.bitSampled 23 (bitDuration (envOfFrame [50, 0, 24, 0, 74]) 23)
        (decide (40 < bitDuration (envOfFrame [50, 0, 24, 0, 74]) 23)) ∈
      (dht11_sensor_debug_read (envOfFrame [50, 0, 24, 0, 74]) app0).2.2 :=
  ⟨(C8_bit_sampling _ app0 (by decide) (by decide)).1 3 (by norm_num),
   (C8_bit_sampling _ app0 (by decide) (by decide)).2.1 23 (by norm_num) (by norm_num)
     (by norm_num)⟩
